import Mathlib

/-!
Shallow embedding of `bot/helper/mirror_leech_utils/gdrive_utils/download.py`
(class `GoogleDriveDownload`).

The embedding follows the source:
  * `chunkLoop`      embeds the `while not done` chunk loop of `_download_file`;
  * `sanitizeFilename` embeds the filename rewriting at the top of `_download_file`;
  * `download_file`  embeds `_download_file` (one call per "attempt": the export
    retry and service-account rotation re-enter it recursively, exactly as in the
    source); each attempt consumes one event stream from the environment;
  * `folderChildAction` embeds the per-child decision of `_download_folder`;
  * `download`       embeds the top-level `download` method: its `try/except/finally`
    shape, the message normalisation, the one-shot `alt_auth` fallback and the
    listener callbacks.

External effects are represented by explicit data: the transport is an oracle
list of `ChunkEvent`s, the local filesystem is a list of existing paths, the
listener's callbacks are a trace of `CbEvent`s, and the mutable
`listener.is_cancelled` flag is a time threshold (`Option Nat`) sampled at each
polling point of the worker, matching the cooperative-cancellation model.
-/

/-- Test whether `pat` is a leading run of `hay` (used to define substring
containment, the Python `in` operator on strings). -/
def startsWithL : List Char → List Char → Bool
  | _, [] => true
  | [], _ :: _ => false
  | a :: as, b :: bs => a = b && startsWithL as bs

/-- Test whether `pat` occurs contiguously in `hay` (Python `pat in hay`). -/
def occursIn (pat : List Char) : List Char → Bool
  | [] => startsWithL [] pat
  | c :: t => startsWithL (c :: t) pat || occursIn pat t

/-- Python's substring test `pat in s`. -/
def strContains (s pat : String) : Bool :=
  occursIn pat.data s.data

/-- Message normalisation of `download`, namely
`str(err).replace(">", "").replace("<", "")`: drop every angle bracket. -/
def stripAngle (s : String) : String :=
  String.mk (s.data.filter (fun ch => ch ≠ '>' && ch ≠ '<'))

/-- UTF-8 byte length of a character list: Python's `len(s.encode())`. -/
def utf8Len (cs : List Char) : Nat :=
  (cs.map Char.utf8Size).sum

/-- Scanner behind `splitextExt`: walking the name left to right, remember
whether a non-dot character has been seen; the extension is the suffix starting
at the last dot that has some non-dot character before it. This matches
CPython's `os.path.splitext` on names without path separators. -/
def extScan : Bool → List Char → Option (List Char)
  | _, [] => none
  | seen, '.' :: rest =>
    match extScan seen rest with
    | some r => some r
    | none => if seen then some ('.' :: rest) else none
  | _, _ :: rest => extScan true rest

/-- Embeds `ospath.splitext(filename)[1]` as used by `_download_file`. -/
def splitextExt (s : String) : String :=
  match extScan false s.data with
  | some ext => String.mk ext
  | none => ""

/-- The filename rewriting at the top of `_download_file`:
`filename = filename.replace("/", "")`, then `filename = f"{filename}.pdf"`
when exporting, then, when the UTF-8 encoding exceeds 255 bytes,
`filename = f"{filename[:245]}{ext}"` with `ext = ospath.splitext(filename)[1]`.
Note the slice `filename[:245]` counts characters, not bytes. -/
def sanitizeFilename (exportMode : Bool) (filename : String) : String :=
  let f1 := String.mk (filename.data.filter (fun ch => ch ≠ '/'))
  let f2 := if exportMode then f1 ++ ".pdf" else f1
  if utf8Len f2.data > 255 then String.mk (f2.data.take 245) ++ splitextExt f2
  else f2

/-- Body of an `HttpError`: either the response carried
`content-type: application/json` — in which case `eval(err.content)...` yields a
reason string (`some r`) or raises while parsing (`none`) — or it did not. -/
inductive ErrBody where
  | json (reason : Option String)
  | notJson
  deriving DecidableEq, Repr

/-- An `HttpError` raised by `downloader.next_chunk()`: its `resp.status` and body. -/
structure HErr where
  status : Nat
  body : ErrBody
  deriving DecidableEq, Repr

/-- One response of the chunk transport: either `next_chunk()` succeeds, writing
`data` and reporting the `done` flag, or raises an `HttpError`. -/
inductive ChunkEvent where
  | chunk (data : List Nat) (done : Bool)
  | err (e : HErr)
  deriving DecidableEq, Repr

/-- How one run of the `while not done` loop of `_download_file` can end. -/
inductive LoopOutcome where
  /-- Loop left with `done = True`: falls through to the end of the function. -/
  | completed (file : List Nat)
  /-- Loop-top cancellation check: `fh.close()` then `break`. -/
  | cancelledClosed (file : List Nat)
  /-- Cancellation check inside the quota branch: `return None` (no close). -/
  | cancelledReturn (file : List Nat)
  /-- Reason `fileNotDownloadable` with a document mime type: re-enter with
  `export=True`. -/
  | exportRetry (file : List Nat) (step : Nat)
  /-- Quota reason while `use_sa` with rotations left: `switch_service_account()`
  then re-enter `_download_file` for the same object. -/
  | rotate (file : List Nat) (step : Nat)
  /-- Outcome of `raise err`: the `HttpError` escapes the loop. -/
  | raised (e : HErr)
  /-- Outcome when `eval(err.content)` (or a field access after it) raises: the
  parse exception escapes the loop. -/
  | parseFail (e : HErr)
  /-- The event oracle ran out while `done` was still false. -/
  | starved (file : List Nat) (retries : Nat)
  deriving DecidableEq, Repr

/-- Test `err.resp.status in [500, 502, 503, 504, 429]`. -/
def transientStatus (n : Nat) : Bool :=
  n == 500 || n == 502 || n == 503 || n == 504 || n == 429

/-- The mutable `listener.is_cancelled` flag sampled at polling point `step`:
`some t` means the caller sets the flag at time `t` (and it stays set). -/
def isCancelledAt (cancel : Option Nat) (step : Nat) : Bool :=
  match cancel with
  | some t => decide (t ≤ step)
  | none => false

/-- The `while not done` loop of `_download_file`. Parameters `mt`, `useSA`,
`saCount`, `saNumber` are `mime_type`, `self.use_sa`, `self.sa_count`,
`self.sa_number`; `cancel` is the cancellation schedule, `step` the current
polling time, `retries` the in-loop transient counter (initially 0, never reset),
`file` the bytes written to `fh` so far. One oracle event is consumed per
iteration. -/
def chunkLoop (mt : String) (useSA : Bool) (saCount saNumber : Nat)
    (cancel : Option Nat) :
    List ChunkEvent → Nat → Nat → List Nat → LoopOutcome
  | evs, step, retries, file =>
    if isCancelledAt cancel step then .cancelledClosed file
    else
      match evs with
      | [] => .starved file retries
      | .chunk data done :: rest =>
        if done then .completed (file ++ data)
        else chunkLoop mt useSA saCount saNumber cancel rest (step + 1) retries
          (file ++ data)
      | .err e :: rest =>
        if transientStatus e.status = true ∧ retries < 10 then
          chunkLoop mt useSA saCount saNumber cancel rest (step + 1) (retries + 1)
            file
        else
          match e.body with
          | .notJson =>
            chunkLoop mt useSA saCount saNumber cancel rest (step + 1) retries file
          | .json none => .parseFail e
          | .json (some reason) =>
            if strContains reason "fileNotDownloadable" && strContains mt "document"
            then .exportRetry file step
            else if !(reason == "downloadQuotaExceeded"
                || reason == "dailyLimitExceeded") then .raised e
            else if useSA then
              if saNumber ≤ saCount then .raised e
              else if isCancelledAt cancel step then .cancelledReturn file
              else .rotate file step
            else .raised e

/-- The service-account fields of the helper read by `_download_file`:
`use_sa`, `sa_count`, `sa_number`. -/
structure SAState where
  use_sa : Bool
  sa_count : Nat
  sa_number : Nat
  deriving DecidableEq, Repr

/-- Result of `_download_file` (all of its recursive re-entries included). -/
inductive DFResult where
  /-- Fell off the loop with `done`: returns `None` after resetting counters. -/
  | finished (file : List Nat)
  /-- The pre-open `if self.listener.is_cancelled: return None`. -/
  | preCancelled
  /-- Loop-top cancellation: file closed, partial bytes left on disk. -/
  | cancelledMid (file : List Nat)
  /-- Cancellation observed inside the quota branch: `return None`, no close. -/
  | cancelledInQuota (file : List Nat)
  /-- An `HttpError` was re-raised out of the attempt. -/
  | raisedHttp (e : HErr)
  /-- The `eval`-parse of an error body raised out of the attempt. -/
  | raisedParse (e : HErr)
  /-- The transport oracle ran out of events mid-loop. -/
  | noMoreEvents
  /-- The oracle ran out of per-attempt event streams. -/
  | noMoreStreams
  deriving DecidableEq, Repr

/-- Embeds `_download_file(file_id, path, filename, mime_type, export)`. Each
element
of `streams` is the transport oracle for one chunk-transfer attempt; the export
retry and the service-account rotation re-enter the function on the tail, the
rotation after `switch_service_account()` (modelled, per the spec's
`CredentialPool.advance`, as `sa_count + 1`), always reopening the destination
file with mode `"wb"` — hence every attempt restarts from `file = []`.
The export retry passes `export=True`; the rotation call site passes no
`export` argument, so it resets to `False`; both pass the already-sanitized
`filename`, which gets sanitized again. -/
def download_file (mt : String) (cancel : Option Nat) :
    SAState → List (List ChunkEvent) → Nat → Bool → String → DFResult
  | _, [], _, _, _ => .noMoreStreams
  | sa, evs :: rest, step, exportMode, filename =>
    let fname := sanitizeFilename exportMode filename
    if isCancelledAt cancel step then .preCancelled
    else
      match chunkLoop mt sa.use_sa sa.sa_count sa.sa_number cancel evs step 0 [] with
      | .completed f => .finished f
      | .cancelledClosed f => .cancelledMid f
      | .cancelledReturn f => .cancelledInQuota f
      | .exportRetry _ st => download_file mt cancel sa rest st true fname
      | .rotate _ st =>
        download_file mt cancel ⟨sa.use_sa, sa.sa_count + 1, sa.sa_number⟩ rest st
          false fname
      | .raised e => .raisedHttp e
      | .parseFail e => .raisedParse e
      | .starved _ _ => .noMoreEvents

/-- The three mutable flags of the orchestrator read and written by `download`:
`self.alt_auth`, `self.use_sa` and `self.listener.is_cancelled`. -/
structure OrchState where
  alt_auth : Bool
  use_sa : Bool
  is_cancelled : Bool
  deriving DecidableEq, Repr

/-- Outcome of one execution of the `try` body of `download` (the metadata
lookup plus `_download_folder` or `_download_file`): it either returns normally
or raises, and the user may have set `listener.is_cancelled` meanwhile
(`cancelledDuring`). `RetryError` unwrapping is already folded in: `msg` is the
message of the exception `download` ends up normalising. -/
inductive RunBody where
  | ok (cancelledDuring : Bool)
  | raises (msg : String) (cancelledDuring : Bool)
  deriving DecidableEq, Repr

/-- Observable listener/timer calls made by `download`, in order. -/
inductive CbEvent where
  | errorCb (msg : String)
  | completeCb
  | updaterCancel
  deriving DecidableEq, Repr

/-- The `download` method: one `RunBody` is consumed per invocation; the only
recursive invocation is the one-shot `alt_auth` fallback (`return
self.download()` inside the `except` block), after which the `finally` block of
the outer invocation still runs — `self._updater.cancel()` and, when
`listener.is_cancelled` is unset, `listener.on_download_complete()`. -/
def download : List RunBody → OrchState → OrchState × List CbEvent
  | [], s => (s, [])
  | .ok c :: _, s =>
    let cNew := s.is_cancelled || c
    (⟨s.alt_auth, s.use_sa, cNew⟩,
      .updaterCancel :: (if cNew then [] else [.completeCb]))
  | .raises m c :: rest, s =>
    let m1 := stripAngle m
    if strContains m1 "downloadQuotaExceeded" then
      (⟨s.alt_auth, s.use_sa, true⟩,
        [.errorCb "Download Quota Exceeded.", .updaterCancel])
    else if strContains m1 "File not found" then
      if !s.alt_auth && s.use_sa then
        let inner := download rest ⟨true, false, s.is_cancelled || c⟩
        (inner.1,
          .updaterCancel :: inner.2 ++ .updaterCancel ::
            (if inner.1.is_cancelled then [] else [.completeCb]))
      else
        (⟨s.alt_auth, s.use_sa, true⟩, [.errorCb "File not found!", .updaterCancel])
    else
      (⟨s.alt_auth, s.use_sa, true⟩, [.errorCb m1, .updaterCancel])

/-- Is the event an `on_download_error` call. -/
def isErrCb : CbEvent → Bool
  | .errorCb _ => true
  | _ => false

/-- Is the event an `on_download_complete` call. -/
def isCompleteCb : CbEvent → Bool
  | .completeCb => true
  | _ => false

/-- Number of `on_download_error` calls in a trace. -/
def errCount (l : List CbEvent) : Nat :=
  (l.filter isErrCb).length

/-- Number of `on_download_complete` calls in a trace. -/
def completeCount (l : List CbEvent) : Nat :=
  (l.filter isCompleteCb).length

/-- True exactly when some `on_download_error` call is later followed by an
`on_download_complete` call. -/
def errThenComplete : List CbEvent → Bool
  | [] => false
  | e :: rest => (isErrCb e && rest.any isCompleteCb) || errThenComplete rest

/-- Modelled from the spec: the string form of a transport error as seen by
`download`'s substring checks (`googleapiclient`'s `HttpError.__str__` is not
part of this repository); per §7 the quota message normalisation keys on the
reason code being embedded in the message. -/
def errMsg (e : HErr) : String :=
  "HttpError: " ++
    (match e.body with
     | .json (some r) => r
     | _ => "")


/-- A transient transport error: retryable status, JSON body with a
non-transient, non-quota reason (`backendError`). -/
def transientEvt : ChunkEvent :=
  .err ⟨503, .json (some "backendError")⟩

/-- Oracle events for a list of data chunks, each delivered without error;
the last one reports `done = True`. -/
def cleanEvents : List (List Nat) → List ChunkEvent
  | [] => []
  | [c] => [.chunk c true]
  | c :: cs => .chunk c false :: cleanEvents cs

/-- Oracle events delivering `chunks` where the fetch of chunk `i` first fails
`errs[i]` times with a transient error, then succeeds. `errInterleave [] cs`
is the no-error schedule `cleanEvents cs`. -/
def errInterleave : List Nat → List (List Nat) → List ChunkEvent
  | _, [] => []
  | [], cs => cleanEvents cs
  | e :: _, [c] => List.replicate e transientEvt ++ [.chunk c true]
  | e :: es, c :: cs =>
    List.replicate e transientEvt ++ (.chunk c false :: errInterleave es cs)

/-- Oracle events for a run of partial (non-final) data chunks. -/
def chunkEvents (pd : List (List Nat)) : List ChunkEvent :=
  pd.map (fun d => ChunkEvent.chunk d false)

/-- Embeds `filename.strip().lower()` (ASCII case mapping, whitespace trim). -/
def lowerStrip (s : String) : String :=
  String.mk
    (((s.data.dropWhile Char.isWhitespace).reverse.dropWhile
        Char.isWhitespace).reverse.map Char.toLower)

/-- Embeds `hay.endswith(suf)` on character lists. -/
def endsWithL (hay suf : List Char) : Bool :=
  startsWithL hay.reverse suf.reverse

/-- Modelled from the spec: the folder mime-type constant
`self.G_DRIVE_DIR_MIME_TYPE` lives in the `GoogleDriveHelper` superclass, which
is not part of this source tree; the spec only requires it to be the
distinguished Folder type marker. -/
def G_DRIVE_DIR_MIME_TYPE : String :=
  "application/vnd.google-apps.folder"

/-- One child entry as returned by `get_files_by_folder_id`: its `name`,
`mimeType` and optional `shortcutDetails` (`targetId` is irrelevant to the
per-child decision, so only `targetMimeType` is kept). -/
structure DriveItem where
  name : String
  mimeType : String
  shortcutTargetMime : Option String
  deriving DecidableEq, Repr

/-- What `_download_folder` does with one child. -/
inductive ChildAction where
  | recurseFolder
  | transfer
  | skip
  deriving DecidableEq, Repr

/-- The per-child decision of `_download_folder`'s loop body: resolve the
shortcut target mime type; recurse on folders; otherwise transfer unless
`ospath.isfile(f"{path}{filename}")` — note the source builds this probe path
with no separator between `path` and `filename` — or the stripped, lowercased
name ends with an excluded suffix. -/
def folderChildAction (existingFiles : List String) (excluded : List String)
    (path : String) (item : DriveItem) : ChildAction :=
  let mt := match item.shortcutTargetMime with
    | some m => m
    | none => item.mimeType
  if mt = G_DRIVE_DIR_MIME_TYPE then .recurseFolder
  else if (path ++ item.name) ∈ existingFiles then .skip
  else if excluded.any (fun suf => endsWithL (lowerStrip item.name).data suf.data)
  then .skip
  else .transfer

/-- The path `_download_file` actually opens: `FileIO(f"{path}/{filename}", "wb")`
(with the separator). -/
def destPath (path filename : String) : String :=
  path ++ "/" ++ filename

/-- A 130-character name of two-byte characters plus a four-byte extension:
264 UTF-8 bytes, over the 255 limit. -/
def longName : String :=
  String.mk (List.replicate 130 'é' ++ ".mkv".data)

/-- A successful non-final chunk appends its data and loops. -/
theorem chunkLoop_chunk_false (mt : String) (u : Bool) (sc sn : Nat)
    (d : List Nat) (rest : List ChunkEvent) (step retries : Nat) (file : List Nat) :
    chunkLoop mt u sc sn none (.chunk d false :: rest) step retries file
      = chunkLoop mt u sc sn none rest (step + 1) retries (file ++ d) := by
  simp [chunkLoop, isCancelledAt]

/-- A successful final chunk ends the loop with the accumulated bytes. -/
theorem chunkLoop_chunk_true (mt : String) (u : Bool) (sc sn : Nat)
    (d : List Nat) (rest : List ChunkEvent) (step retries : Nat) (file : List Nat) :
    chunkLoop mt u sc sn none (.chunk d true :: rest) step retries file
      = .completed (file ++ d) := by
  simp [chunkLoop, isCancelledAt]

/-- A transient-status error with in-loop retry budget left re-requests the same
chunk: the event is consumed, the counter increments, the accumulated file
bytes (hence the write position) are untouched and the file is not closed. -/
theorem chunkLoop_transient (mt : String) (u : Bool) (sc sn st : Nat)
    (b : ErrBody) (rest : List ChunkEvent) (step retries : Nat) (file : List Nat)
    (h1 : transientStatus st = true) (h2 : retries < 10) :
    chunkLoop mt u sc sn none (.err ⟨st, b⟩ :: rest) step retries file
      = chunkLoop mt u sc sn none rest (step + 1) (retries + 1) file := by
  simp [chunkLoop, isCancelledAt, h1, h2]

/-- A run of `k` transient errors is absorbed whenever the cumulative counter
stays within the ceiling, adding `k` to the counter and writing nothing. -/
theorem chunkLoop_replicate_transient (mt : String) (u : Bool) (sc sn : Nat) :
    ∀ (k : Nat) (rest : List ChunkEvent) (step retries : Nat) (file : List Nat),
    retries + k ≤ 10 →
    chunkLoop mt u sc sn none (List.replicate k transientEvt ++ rest) step retries
        file
      = chunkLoop mt u sc sn none rest (step + k) (retries + k) file := by
  intro k
  induction k with
  | zero => intro rest step retries file _; simp
  | succ n ih =>
    intro rest step retries file h
    rw [List.replicate_succ, List.cons_append]
    have step1 :
        chunkLoop mt u sc sn none
            (transientEvt :: (List.replicate n transientEvt ++ rest)) step retries
            file
          = chunkLoop mt u sc sn none (List.replicate n transientEvt ++ rest)
              (step + 1) (retries + 1) file :=
      chunkLoop_transient mt u sc sn 503 _ _ step retries file (by decide)
        (by omega)
    rw [step1, ih rest (step + 1) (retries + 1) file (by omega)]
    have h1 : step + 1 + n = step + (n + 1) := by omega
    have h2 : retries + 1 + n = retries + (n + 1) := by omega
    rw [h1, h2]

/-- An error-free schedule completes with exactly the concatenation of its
chunks appended. -/
theorem chunkLoop_cleanEvents (mt : String) (u : Bool) (sc sn : Nat) :
    ∀ (chunks : List (List Nat)), chunks ≠ [] →
    ∀ (step retries : Nat) (file : List Nat),
    chunkLoop mt u sc sn none (cleanEvents chunks) step retries file
      = .completed (file ++ chunks.flatten) := by
  intro chunks
  induction chunks with
  | nil => intro h; exact absurd rfl h
  | cons c cs ih =>
    intro _ step retries file
    cases cs with
    | nil =>
      rw [show cleanEvents [c] = [ChunkEvent.chunk c true] from rfl]
      rw [chunkLoop_chunk_true]
      simp
    | cons c2 cs2 =>
      rw [show cleanEvents (c :: c2 :: cs2)
          = ChunkEvent.chunk c false :: cleanEvents (c2 :: cs2) from rfl]
      rw [chunkLoop_chunk_false, ih (by simp) (step + 1) retries (file ++ c)]
      simp

/-- A schedule in which the fetch of chunk `i` fails `errs[i]` times before
succeeding completes with exactly the clean concatenation, provided the total
number of transient failures stays within the in-loop ceiling. -/
theorem chunkLoop_errInterleave (mt : String) (u : Bool) (sc sn : Nat) :
    ∀ (chunks : List (List Nat)) (errs : List Nat) (step retries : Nat)
      (file : List Nat),
    chunks ≠ [] → retries + errs.sum ≤ 10 →
    chunkLoop mt u sc sn none (errInterleave errs chunks) step retries file
      = .completed (file ++ chunks.flatten) := by
  intro chunks
  induction chunks with
  | nil => intro errs _ _ _ h _; exact absurd rfl h
  | cons c cs ih =>
    intro errs step retries file _ hsum
    cases errs with
    | nil =>
      rw [show errInterleave [] (c :: cs) = cleanEvents (c :: cs) from rfl]
      exact chunkLoop_cleanEvents mt u sc sn (c :: cs) (by simp) step retries file
    | cons e es =>
      cases cs with
      | nil =>
        rw [show errInterleave (e :: es) [c]
            = List.replicate e transientEvt ++ [ChunkEvent.chunk c true] from rfl]
        rw [chunkLoop_replicate_transient mt u sc sn e _ step retries file
          (by simp at hsum; omega)]
        rw [chunkLoop_chunk_true]
        simp
      | cons c2 cs2 =>
        rw [show errInterleave (e :: es) (c :: c2 :: cs2)
            = List.replicate e transientEvt
              ++ (ChunkEvent.chunk c false :: errInterleave es (c2 :: cs2)) from
          rfl]
        rw [chunkLoop_replicate_transient mt u sc sn e _ step retries file
          (by simp at hsum; omega)]
        rw [chunkLoop_chunk_false]
        rw [ih es (step + e + 1) (retries + e) (file ++ c) (by simp)
          (by simp at hsum; omega)]
        simp

/-- A run of successful non-final chunks appends their bytes and advances time. -/
theorem chunkLoop_chunkEvents (mt : String) (u : Bool) (sc sn : Nat) :
    ∀ (pd : List (List Nat)) (rest : List ChunkEvent) (step retries : Nat)
      (file : List Nat),
    chunkLoop mt u sc sn none (chunkEvents pd ++ rest) step retries file
      = chunkLoop mt u sc sn none rest (step + pd.length) retries (file ++ pd.flatten)
      := by
  intro pd
  induction pd with
  | nil => intro rest step retries file; simp [chunkEvents]
  | cons d ds ih =>
    intro rest step retries file
    rw [show chunkEvents (d :: ds) = ChunkEvent.chunk d false :: chunkEvents ds from
      rfl]
    rw [List.cons_append, chunkLoop_chunk_false, ih]
    have h1 : step + 1 + ds.length = step + (ds.length + 1) := by omega
    rw [h1]
    simp

/-- A quota-reason error (`downloadQuotaExceeded` or `dailyLimitExceeded`) at
the head of the schedule: raised when the service accounts are exhausted,
otherwise a rotation. -/
theorem chunkLoop_quota (mt r : String) (sc sn : Nat) (rest : List ChunkEvent)
    (step retries : Nat) (file : List Nat)
    (hr : r = "downloadQuotaExceeded" ∨ r = "dailyLimitExceeded") :
    chunkLoop mt true sc sn none (.err ⟨403, .json (some r)⟩ :: rest) step retries
        file
      = if sn ≤ sc then .raised ⟨403, .json (some r)⟩ else .rotate file step := by
  rcases hr with rfl | rfl
  · have hc : strContains "downloadQuotaExceeded" "fileNotDownloadable" = false :=
      by decide
    have hq : (("downloadQuotaExceeded" : String) == "downloadQuotaExceeded"
        || ("downloadQuotaExceeded" : String) == "dailyLimitExceeded") = true := by
      decide
    by_cases h : sn ≤ sc <;>
      simp [chunkLoop, isCancelledAt, transientStatus, hc, hq, h]
  · have hc : strContains "dailyLimitExceeded" "fileNotDownloadable" = false := by
      decide
    have hq : (("dailyLimitExceeded" : String) == "downloadQuotaExceeded"
        || ("dailyLimitExceeded" : String) == "dailyLimitExceeded") = true := by
      decide
    by_cases h : sn ≤ sc <;>
      simp [chunkLoop, isCancelledAt, transientStatus, hc, hq, h]


/-- An attempt whose transport delivers an error-free schedule finishes with the
clean bytes, whatever state the attempt starts in. -/
theorem download_file_clean (mt fn : String) (sa : SAState)
    (rest : List (List ChunkEvent)) (step : Nat) (chunks : List (List Nat))
    (hne : chunks ≠ []) :
    download_file mt none sa (cleanEvents chunks :: rest) step false fn
      = .finished chunks.flatten := by
  have h := chunkLoop_cleanEvents mt sa.use_sa sa.sa_count sa.sa_number chunks hne
    step 0 []
  simp [download_file, isCancelledAt, h]

/-- On-error calls count additively over trace concatenation. -/
theorem errCount_append (l1 l2 : List CbEvent) :
    errCount (l1 ++ l2) = errCount l1 + errCount l2 := by
  simp [errCount, List.filter_append]

/-- On-complete calls count additively over trace concatenation. -/
theorem completeCount_append (l1 l2 : List CbEvent) :
    completeCount (l1 ++ l2) = completeCount l1 + completeCount l2 := by
  simp [completeCount, List.filter_append]

/-- Splitting an error-then-complete scan over trace concatenation. -/
theorem errThenComplete_append (xs ys : List CbEvent) :
    errThenComplete (xs ++ ys)
      = (errThenComplete xs || (xs.any isErrCb && ys.any isCompleteCb)
          || errThenComplete ys) := by
  induction xs with
  | nil => simp [errThenComplete]
  | cons x t ih =>
    simp [errThenComplete, ih, List.any_append]
    cases isErrCb x <;> cases t.any isErrCb <;> cases t.any isCompleteCb <;>
      cases ys.any isCompleteCb <;> cases errThenComplete t <;>
      cases errThenComplete ys <;> simp

/-- Branch equation: a normally-returning body runs the `finally` block only. -/
theorem download_ok (c : Bool) (rest : List RunBody) (s : OrchState) :
    download (.ok c :: rest) s
      = (⟨s.alt_auth, s.use_sa, s.is_cancelled || c⟩,
         .updaterCancel ::
           (if (s.is_cancelled || c) then [] else [.completeCb])) := by
  simp [download]

/-- Branch equation: a message containing `downloadQuotaExceeded` is normalised
and reported, and `listener.is_cancelled` is set. -/
theorem download_quota_branch (m : String) (c : Bool) (rest : List RunBody)
    (s : OrchState)
    (h1 : strContains (stripAngle m) "downloadQuotaExceeded" = true) :
    download (.raises m c :: rest) s
      = (⟨s.alt_auth, s.use_sa, true⟩,
         [.errorCb "Download Quota Exceeded.", .updaterCancel]) := by
  simp [download, h1]

/-- Branch equation: the one-shot alternate-auth fallback of `download`. The
run is retried once on the same inputs with `alt_auth` latched and `use_sa`
turned off, the progress updater is cancelled first, and the outer `finally`
block still runs after the inner invocation returns. -/
theorem download_fallback (m : String) (c : Bool) (rest : List RunBody)
    (s : OrchState)
    (h1 : strContains (stripAngle m) "downloadQuotaExceeded" = false)
    (h2 : strContains (stripAngle m) "File not found" = true)
    (h3 : s.alt_auth = false) (h4 : s.use_sa = true) :
    download (.raises m c :: rest) s
      = ((download rest ⟨true, false, s.is_cancelled || c⟩).1,
         .updaterCancel :: (download rest ⟨true, false, s.is_cancelled || c⟩).2
           ++ .updaterCancel ::
           (if (download rest ⟨true, false, s.is_cancelled || c⟩).1.is_cancelled
            then [] else [.completeCb])) := by
  cases s with
  | mk a u ic =>
    simp only [OrchState.alt_auth, OrchState.use_sa] at h3 h4
    subst h3; subst h4
    simp [download, h1, h2]

/-- Branch equation: `File not found` with the fallback unavailable is fatal. -/
theorem download_fnf_fatal (m : String) (c : Bool) (rest : List RunBody)
    (s : OrchState)
    (h1 : strContains (stripAngle m) "downloadQuotaExceeded" = false)
    (h2 : strContains (stripAngle m) "File not found" = true)
    (h3 : (!s.alt_auth && s.use_sa) = false) :
    download (.raises m c :: rest) s
      = (⟨s.alt_auth, s.use_sa, true⟩,
         [.errorCb "File not found!", .updaterCancel]) := by
  simp [download, h1, h2, h3]

/-- Branch equation: any other message is reported with angle brackets
stripped. -/
theorem download_other_err (m : String) (c : Bool) (rest : List RunBody)
    (s : OrchState)
    (h1 : strContains (stripAngle m) "downloadQuotaExceeded" = false)
    (h2 : strContains (stripAngle m) "File not found" = false) :
    download (.raises m c :: rest) s
      = (⟨s.alt_auth, s.use_sa, true⟩,
         [.errorCb (stripAngle m), .updaterCancel]) := by
  simp [download, h1, h2]

/-- Whenever a `download` trace contains an `on_download_error` call, the final
state has `listener.is_cancelled` set (the `except` block sets it right after
reporting). -/
theorem download_err_sets_cancel :
    ∀ (env : List RunBody) (s : OrchState),
    (download env s).2.any isErrCb = true → (download env s).1.is_cancelled = true
    := by
  intro env
  induction env with
  | nil => intro s h; simp [download] at h
  | cons b rest ih =>
    intro s h
    cases b with
    | ok c =>
      rw [download_ok] at h
      by_cases hc : (s.is_cancelled || c) = true <;> simp [hc, isErrCb] at h
    | raises m c =>
      by_cases h1 : strContains (stripAngle m) "downloadQuotaExceeded" = true
      · rw [download_quota_branch m c rest s h1]
      · rw [Bool.not_eq_true] at h1
        by_cases h2 : strContains (stripAngle m) "File not found" = true
        · by_cases h3 : (!s.alt_auth && s.use_sa) = true
          · have ha : s.alt_auth = false := by
              cases hsa : s.alt_auth <;> simp [hsa] at h3 ⊢
            have hu : s.use_sa = true := by
              cases hsu : s.use_sa <;> simp [hsu] at h3 ⊢
            rw [download_fallback m c rest s h1 h2 ha hu] at h ⊢
            simp only [List.any_cons, List.any_append, isErrCb,
              Bool.false_or] at h
            by_cases h4 :
                (download rest ⟨true, false, s.is_cancelled || c⟩).1.is_cancelled
                = true
            · exact h4
            · simp only [h4, if_neg, Bool.false_eq_true, if_false] at h
              simp only [isErrCb, List.any_cons, List.any_nil] at h
              rcases Bool.or_eq_true_iff.mp h with h5 | h5
              · exact ih _ h5
              · simp at h5
          · rw [Bool.not_eq_true] at h3
            rw [download_fnf_fatal m c rest s h1 h2 h3]
        · rw [Bool.not_eq_true] at h2
          rw [download_other_err m c rest s h1 h2]

/-- A quota-exceeded transport error with rotations left: the attempt rotates to
the next service account and re-enters `_download_file`, restarting the chunk
transfer of the same object; the bytes already written (`pd`) are discarded
because the re-entry reopens the destination with mode `"wb"`. -/
theorem download_file_rotate (mt fn r : String) (sc sn n : Nat)
    (pd : List (List Nat)) (rest : List (List ChunkEvent)) (h : sc < sn)
    (hr : r = "downloadQuotaExceeded" ∨ r = "dailyLimitExceeded") :
    download_file mt none ⟨true, sc, sn⟩
        ((chunkEvents pd ++ [.err ⟨403, .json (some r)⟩]) :: rest) n false fn
      = download_file mt none ⟨true, sc + 1, sn⟩ rest (n + pd.length) false
          (sanitizeFilename false fn) := by
  have h1 := chunkLoop_chunkEvents mt true sc sn pd
    [.err ⟨403, .json (some r)⟩] n 0 []
  have h2 := chunkLoop_quota mt r sc sn [] (n + pd.length) 0 ([] ++ pd.flatten) hr
  rw [if_neg (by omega)] at h2
  simp only [download_file, isCancelledAt]
  rw [h1, h2]
  simp

/-- A quota-exceeded transport error with the service accounts exhausted: the
`HttpError` is re-raised out of `_download_file`. -/
theorem download_file_quota_raise (mt fn r : String) (sc sn n : Nat)
    (pd : List (List Nat)) (rest : List (List ChunkEvent)) (h : sn ≤ sc)
    (hr : r = "downloadQuotaExceeded" ∨ r = "dailyLimitExceeded") :
    download_file mt none ⟨true, sc, sn⟩
        ((chunkEvents pd ++ [.err ⟨403, .json (some r)⟩]) :: rest) n false fn
      = .raisedHttp ⟨403, .json (some r)⟩ := by
  have h1 := chunkLoop_chunkEvents mt true sc sn pd
    [.err ⟨403, .json (some r)⟩] n 0 []
  have h2 := chunkLoop_quota mt r sc sn [] (n + pd.length) 0 ([] ++ pd.flatten) hr
  rw [if_pos h] at h2
  simp only [download_file, isCancelledAt]
  rw [h1, h2]
  simp

/-- C1: while service credentials are in use, a quota-exceeded transport error
(reason `downloadQuotaExceeded` or `dailyLimitExceeded`) with the rotation
count below the configured maximum advances to the next service credential
(`sa_count + 1`) and restarts the same object's transfer from byte 0 — the
finished file holds only the bytes of the restarted attempt, whatever partial
bytes `pd` the failed attempt had written — while with the rotation count at
the maximum the error is re-raised and, at the orchestrator level, the
listener's error callback fires exactly once for either reason: with the
normalised `Download Quota Exceeded.` message for `downloadQuotaExceeded`, and
with the stripped raw message for `dailyLimitExceeded` (which misses the
normalisation branch). -/
theorem claim_C1 :
    (∀ (mt fn r : String) (sc sn n : Nat) (pd : List (List Nat))
        (rest : List (List ChunkEvent)),
      sc < sn → r = "downloadQuotaExceeded" ∨ r = "dailyLimitExceeded" →
      download_file mt none ⟨true, sc, sn⟩
          ((chunkEvents pd ++ [.err ⟨403, .json (some r)⟩]) :: rest) n false fn
        = download_file mt none ⟨true, sc + 1, sn⟩ rest (n + pd.length) false
            (sanitizeFilename false fn))
    ∧ (∀ (mt fn r : String) (sc sn n : Nat) (pd chunks : List (List Nat))
        (rest : List (List ChunkEvent)),
      sc < sn → r = "downloadQuotaExceeded" ∨ r = "dailyLimitExceeded" →
      chunks ≠ [] →
      download_file mt none ⟨true, sc, sn⟩
          ((chunkEvents pd ++ [.err ⟨403, .json (some r)⟩])
            :: cleanEvents chunks :: rest) n false fn
        = .finished chunks.flatten)
    ∧ (∀ (mt fn r : String) (sc sn n : Nat) (pd : List (List Nat))
        (rest : List (List ChunkEvent)),
      sn ≤ sc → r = "downloadQuotaExceeded" ∨ r = "dailyLimitExceeded" →
      download_file mt none ⟨true, sc, sn⟩
          ((chunkEvents pd ++ [.err ⟨403, .json (some r)⟩]) :: rest) n false fn
        = .raisedHttp ⟨403, .json (some r)⟩)
    ∧ (∀ (s : OrchState) (rest : List RunBody),
      download
          (.raises (errMsg ⟨403, .json (some "downloadQuotaExceeded")⟩) false
            :: rest) s
        = (⟨s.alt_auth, s.use_sa, true⟩,
           [.errorCb "Download Quota Exceeded.", .updaterCancel])
      ∧ download
          (.raises (errMsg ⟨403, .json (some "dailyLimitExceeded")⟩) false
            :: rest) s
        = (⟨s.alt_auth, s.use_sa, true⟩,
           [.errorCb "HttpError: dailyLimitExceeded", .updaterCancel])
      ∧ (∀ (r : String),
          r = "downloadQuotaExceeded" ∨ r = "dailyLimitExceeded" →
          errCount (download
              (.raises (errMsg ⟨403, .json (some r)⟩) false :: rest) s).2 = 1)) := by
  refine ⟨?_, ?_, ?_, ?_⟩
  · intro mt fn r sc sn n pd rest h hr
    exact download_file_rotate mt fn r sc sn n pd rest h hr
  · intro mt fn r sc sn n pd chunks rest h hr hne
    rw [download_file_rotate mt fn r sc sn n pd _ h hr]
    exact download_file_clean mt _ _ rest (n + pd.length) chunks hne
  · intro mt fn r sc sn n pd rest h hr
    exact download_file_quota_raise mt fn r sc sn n pd rest h hr
  · intro s rest
    have h1 :
        strContains
            (stripAngle (errMsg ⟨403, .json (some "downloadQuotaExceeded")⟩))
            "downloadQuotaExceeded" = true := by decide
    have h2 :
        strContains
            (stripAngle (errMsg ⟨403, .json (some "dailyLimitExceeded")⟩))
            "downloadQuotaExceeded" = false := by decide
    have h3 :
        strContains
            (stripAngle (errMsg ⟨403, .json (some "dailyLimitExceeded")⟩))
            "File not found" = false := by decide
    have hdq := download_quota_branch _ false rest s h1
    have hdl := download_other_err _ false rest s h2 h3
    have hstr :
        stripAngle (errMsg ⟨403, ErrBody.json (some "dailyLimitExceeded")⟩)
          = "HttpError: dailyLimitExceeded" := by decide
    rw [hstr] at hdl
    refine ⟨hdq, hdl, ?_⟩
    intro r hr
    rcases hr with rfl | rfl
    · rw [hdq]; simp [errCount, isErrCb]
    · rw [hdl]; simp [errCount, isErrCb]

/-- Witness for C1 at concrete inputs, exercising both quota reasons. -/
theorem claim_C1_witness :
    (0 : Nat) < 2
    ∧ download_file "video/mp4" none ⟨true, 0, 2⟩
        ((chunkEvents [[9]]
            ++ [.err ⟨403, .json (some "downloadQuotaExceeded")⟩])
          :: cleanEvents [[1, 2]] :: []) 0 false "a.bin"
      = .finished [[1, 2]].flatten
    ∧ download_file "video/mp4" none ⟨true, 0, 2⟩
        ((chunkEvents [[9]] ++ [.err ⟨403, .json (some "dailyLimitExceeded")⟩])
          :: cleanEvents [[1, 2]] :: []) 0 false "a.bin"
      = .finished [[1, 2]].flatten
    ∧ download_file "video/mp4" none ⟨true, 2, 2⟩
        ((chunkEvents [[9]] ++ [.err ⟨403, .json (some "dailyLimitExceeded")⟩])
          :: []) 0 false "a.bin"
      = .raisedHttp ⟨403, .json (some "dailyLimitExceeded")⟩
    ∧ errCount (download
        [.raises (errMsg ⟨403, .json (some "downloadQuotaExceeded")⟩) false]
        ⟨false, true, false⟩).2 = 1
    ∧ errCount (download
        [.raises (errMsg ⟨403, .json (some "dailyLimitExceeded")⟩) false]
        ⟨false, true, false⟩).2 = 1 :=
  ⟨by decide,
   claim_C1.2.1 "video/mp4" "a.bin" "downloadQuotaExceeded" 0 2 0 [[9]] [[1, 2]]
     [] (by decide) (Or.inl rfl) (by decide),
   claim_C1.2.1 "video/mp4" "a.bin" "dailyLimitExceeded" 0 2 0 [[9]] [[1, 2]]
     [] (by decide) (Or.inr rfl) (by decide),
   claim_C1.2.2.1 "video/mp4" "a.bin" "dailyLimitExceeded" 2 2 0 [[9]] []
     (by decide) (Or.inr rfl),
   (claim_C1.2.2.2 ⟨false, true, false⟩ []).2.2 "downloadQuotaExceeded"
     (Or.inl rfl),
   (claim_C1.2.2.2 ⟨false, true, false⟩ []).2.2 "dailyLimitExceeded"
     (Or.inr rfl)⟩

/-- C2: a run failing with a message containing `File not found` while `use_sa`
is set and the `alt_auth` latch is clear is retried exactly once with the same
inputs; when the retried run fails the same way, the fatal message
`File not found!` is reported through one error callback and no further retry
happens — the result does not depend on any further oracle entries `rest`. -/
theorem claim_C2 (m1 m2 : String) (cd : Bool) (rest : List RunBody)
    (h1 : strContains (stripAngle m1) "downloadQuotaExceeded" = false)
    (h2 : strContains (stripAngle m1) "File not found" = true)
    (h3 : strContains (stripAngle m2) "downloadQuotaExceeded" = false)
    (h4 : strContains (stripAngle m2) "File not found" = true) :
    download (.raises m1 false :: .raises m2 cd :: rest) ⟨false, true, false⟩
      = (⟨true, false, true⟩,
         [.updaterCancel, .errorCb "File not found!", .updaterCancel,
          .updaterCancel])
    ∧ errCount (download (.raises m1 false :: .raises m2 cd :: rest)
        ⟨false, true, false⟩).2 = 1 := by
  have heq :
      download (.raises m1 false :: .raises m2 cd :: rest) ⟨false, true, false⟩
        = (⟨true, false, true⟩,
           [.updaterCancel, .errorCb "File not found!", .updaterCancel,
            .updaterCancel]) := by
    rw [download_fallback m1 false _ _ h1 h2 rfl rfl]
    rw [show ((⟨false, true, false⟩ : OrchState).is_cancelled || false) = false from
      rfl]
    rw [download_fnf_fatal m2 cd rest ⟨true, false, false⟩ h3 h4 (by decide)]
    rfl
  exact ⟨heq, by rw [heq]; simp [errCount, isErrCb]⟩

/-- Witness for C2 at concrete inputs. -/
theorem claim_C2_witness :
    strContains (stripAngle "File not found") "File not found" = true
    ∧ download [.raises "File not found" false, .raises "File not found" false]
        ⟨false, true, false⟩
      = (⟨true, false, true⟩,
         [.updaterCancel, .errorCb "File not found!", .updaterCancel,
          .updaterCancel]) :=
  ⟨by decide,
   (claim_C2 "File not found" "File not found" false [] (by decide) (by decide)
     (by decide) (by decide)).1⟩

/-- C3 counterexample: on the not-found fallback the code sets
`self.use_sa = False` and retries with the primary `token.pickle` credential;
after a run in which the fallback fired, `alt_auth` is latched but `use_sa` is
false — the code switches AWAY from service credentials, not "exclusively to
service credentials" as the claim states. -/
theorem claim_C3_cex :
    ((download [.raises "File not found" false, .ok false]
        ⟨false, true, false⟩).1.alt_auth = true)
    ∧ ¬((download [.raises "File not found" false, .ok false]
        ⟨false, true, false⟩).1.use_sa = true) := by decide

/-- C3 (amended): when the one-shot fallback fires on a not-found failure, the
orchestrator switches FROM service credentials TO the primary credential
(`use_sa := false`, `alt_auth := true` — the claim has the direction reversed),
cancels the current progress-updater tick first (`updaterCancel` leads the
trace), and retries the entire run once with the same inputs; the outer
`finally` block still runs after the retried run returns. -/
theorem claim_C3 (m : String) (c : Bool) (rest : List RunBody) (s : OrchState)
    (h1 : strContains (stripAngle m) "downloadQuotaExceeded" = false)
    (h2 : strContains (stripAngle m) "File not found" = true)
    (h3 : s.alt_auth = false) (h4 : s.use_sa = true) :
    download (.raises m c :: rest) s
      = ((download rest ⟨true, false, s.is_cancelled || c⟩).1,
         .updaterCancel :: (download rest ⟨true, false, s.is_cancelled || c⟩).2
           ++ .updaterCancel ::
           (if (download rest ⟨true, false, s.is_cancelled || c⟩).1.is_cancelled
            then [] else [.completeCb])) :=
  download_fallback m c rest s h1 h2 h3 h4

/-- Witness for C3 at concrete inputs. -/
theorem claim_C3_witness :
    download [RunBody.raises "File not found" false, RunBody.ok false]
        ⟨false, true, false⟩
      = ((download [RunBody.ok false] ⟨true, false, false⟩).1,
         .updaterCancel :: (download [RunBody.ok false] ⟨true, false, false⟩).2
           ++ .updaterCancel ::
           (if (download [RunBody.ok false]
                ⟨true, false, false⟩).1.is_cancelled
            then [] else [.completeCb])) :=
  claim_C3 "File not found" false [RunBody.ok false] ⟨false, true, false⟩
    (by decide) (by decide) rfl rfl

set_option maxRecDepth 8000 in
/-- C4 (code bug): the truncation slices 245 characters, not bytes. For a name
of 130 two-byte characters plus `.mkv` (264 UTF-8 bytes, over the limit), the
stored name keeps all 134 characters and appends the extension again: 268 UTF-8
bytes, still over 255 — the claim's 255-byte bound is violated even though the
extension is preserved. -/
theorem claim_C4 :
    255 < utf8Len longName.data
    ∧ utf8Len (sanitizeFilename false longName).data = 268
    ∧ endsWithL (sanitizeFilename false longName).data ".mkv".data = true := by
  decide

/-- C5 (code bug): the existence probe of `_download_folder` is
`ospath.isfile(f"{path}{filename}")`, missing the `/` separator, while the
transfer writes to `f"{path}/{filename}"`. With `movie.mkv` already present at
the destination `destPath "/dl/Folder" "movie.mkv"`, the probe misses it and the
child is transferred instead of skipped. -/
theorem claim_C5 :
    folderChildAction ["/dl/Folder/movie.mkv"] [] "/dl/Folder"
        ⟨"movie.mkv", "video/mp4", none⟩ = .transfer
    ∧ destPath "/dl/Folder" "movie.mkv" ∈ ["/dl/Folder/movie.mkv"] := by
  decide

/-- C6 counterexample: an `HttpError` with non-transient status 403 and a body
that is not JSON (so its body cannot be decoded as structured data) does not
surface as a failure at all: the loop silently continues with the next chunk
request and the transfer completes. -/
theorem claim_C6_cex :
    chunkLoop "video/mp4" false 0 0 none
      [.err ⟨403, .notJson⟩, .chunk [7] true] 0 0 [] = .completed [7] := by
  decide

/-- C6 (amended): a chunk-transport error that is neither transient-with-budget
nor quota nor exportable is raised unmodified only when its body parses as JSON
with a reason; when the response is not JSON the error is swallowed and the
loop immediately re-requests (no `Failed(Other)`), and when the JSON body fails
to parse the parse exception itself propagates. -/
theorem claim_C6 (mt r : String) (u : Bool) (sc sn st : Nat)
    (rest : List ChunkEvent) (step retries : Nat) (file : List Nat)
    (cancel : Option Nat)
    (hnc : isCancelledAt cancel step = false)
    (ht : ¬(transientStatus st = true ∧ retries < 10))
    (hx : (strContains r "fileNotDownloadable" && strContains mt "document")
      = false)
    (hq : (r == "downloadQuotaExceeded" || r == "dailyLimitExceeded") = false) :
    chunkLoop mt u sc sn cancel (.err ⟨st, .json (some r)⟩ :: rest) step retries
        file
      = .raised ⟨st, .json (some r)⟩
    ∧ chunkLoop mt u sc sn cancel (.err ⟨st, .notJson⟩ :: rest) step retries file
      = chunkLoop mt u sc sn cancel rest (step + 1) retries file
    ∧ chunkLoop mt u sc sn cancel (.err ⟨st, .json none⟩ :: rest) step retries
        file
      = .parseFail ⟨st, .json none⟩ := by
  refine ⟨?_, ?_, ?_⟩ <;> simp [chunkLoop, hnc, ht, hx, hq]

/-- Witness for C6 at concrete inputs. -/
theorem claim_C6_witness :
    isCancelledAt none 0 = false
    ∧ chunkLoop "video/mp4" false 0 0 none
        [.err ⟨403, .json (some "insufficientFilePermissions")⟩] 0 0 []
      = .raised ⟨403, .json (some "insufficientFilePermissions")⟩ :=
  ⟨rfl,
   (claim_C6 "video/mp4" "insufficientFilePermissions" false 0 0 403 [] 0 0 []
     none rfl (by decide) (by decide) (by decide)).1⟩

/-- C7: in every run the error callback fires at most once, and no completion
callback ever follows an error callback in the trace. -/
theorem claim_C7 : ∀ (env : List RunBody) (s : OrchState),
    errCount (download env s).2 ≤ 1
    ∧ errThenComplete (download env s).2 = false := by
  intro env
  induction env with
  | nil =>
    intro s
    exact ⟨by simp [download, errCount], by simp [download, errThenComplete]⟩
  | cons b rest ih =>
    intro s
    cases b with
    | ok c =>
      rw [download_ok]
      by_cases hc : (s.is_cancelled || c) = true <;>
        simp [hc, errCount, errThenComplete, isErrCb, isCompleteCb]
    | raises m c =>
      by_cases h1 : strContains (stripAngle m) "downloadQuotaExceeded" = true
      · rw [download_quota_branch m c rest s h1]
        simp [errCount, errThenComplete, isErrCb, isCompleteCb]
      · rw [Bool.not_eq_true] at h1
        by_cases h2 : strContains (stripAngle m) "File not found" = true
        · by_cases h3 : (!s.alt_auth && s.use_sa) = true
          · have ha : s.alt_auth = false := by
              cases hsa : s.alt_auth <;> simp [hsa] at h3 ⊢
            have hu : s.use_sa = true := by
              cases hsu : s.use_sa <;> simp [hsu] at h3 ⊢
            rw [download_fallback m c rest s h1 h2 ha hu]
            obtain ⟨ihe, ihs⟩ := ih ⟨true, false, s.is_cancelled || c⟩
            constructor
            · have he2 :
                  (List.filter isErrCb
                    (download rest ⟨true, false, s.is_cancelled || c⟩).2).length
                    ≤ 1 := by
                simpa [errCount] using ihe
              by_cases h4 :
                  (download rest
                    ⟨true, false, s.is_cancelled || c⟩).1.is_cancelled = true <;>
                simp [h4, errCount, isErrCb, List.filter_append] <;> omega
            · have hE :
                  errThenComplete
                    (download rest ⟨true, false, s.is_cancelled || c⟩).2 = false :=
                ihs
              by_cases h4 :
                  (download rest
                    ⟨true, false, s.is_cancelled || c⟩).1.is_cancelled = true
              · simp [h4, errThenComplete, errThenComplete_append, hE, isErrCb,
                  isCompleteCb]
              · have hae :
                    (download rest
                      ⟨true, false, s.is_cancelled || c⟩).2.any isErrCb = false
                    := by
                  cases hae2 :
                      (download rest
                        ⟨true, false, s.is_cancelled || c⟩).2.any isErrCb
                  · rfl
                  · exact absurd (download_err_sets_cancel rest _ hae2) h4
                simp [h4, hae, errThenComplete, errThenComplete_append, hE,
                  isErrCb, isCompleteCb]
          · rw [Bool.not_eq_true] at h3
            rw [download_fnf_fatal m c rest s h1 h2 h3]
            simp [errCount, errThenComplete, isErrCb, isCompleteCb]
        · rw [Bool.not_eq_true] at h2
          rw [download_other_err m c rest s h1 h2]
          simp [errCount, errThenComplete, isErrCb, isCompleteCb]

/-- C8: at any polling step at which the cancellation flag is already set, the
chunk loop stops immediately — no further oracle event is consumed, whatever
`evs` still holds — closing the file with the bytes written so far; and a run
whose body returns after such a cancellation fires neither the completion nor
the error callback (the trace is just the updater teardown). -/
theorem claim_C8 :
    (∀ (mt : String) (u : Bool) (sc sn : Nat) (cancel : Option Nat)
        (evs : List ChunkEvent) (step retries : Nat) (file : List Nat),
      isCancelledAt cancel step = true →
      chunkLoop mt u sc sn cancel evs step retries file = .cancelledClosed file)
    ∧ (∀ (rest : List RunBody) (s : OrchState),
      download (.ok true :: rest) s
        = (⟨s.alt_auth, s.use_sa, true⟩, [.updaterCancel])) := by
  constructor
  · intro mt u sc sn cancel evs step retries file h
    cases evs with
    | nil => simp [chunkLoop, h]
    | cons e t => cases e <;> simp [chunkLoop, h]
  · intro rest s
    rw [download_ok]
    simp

/-- Witness for C8 at concrete inputs. -/
theorem claim_C8_witness :
    isCancelledAt (some 0) 0 = true
    ∧ chunkLoop "video/mp4" false 0 0 (some 0) [.chunk [1] true] 0 0 []
      = .cancelledClosed []
    ∧ download [.ok true] ⟨false, true, false⟩
      = (⟨false, true, true⟩, [.updaterCancel]) :=
  ⟨rfl,
   claim_C8.1 "video/mp4" false 0 0 (some 0) [.chunk [1] true] 0 0 [] rfl,
   claim_C8.2 [] ⟨false, true, false⟩⟩

/-- C9 counterexample: two chunks failing 6 and 5 consecutive times — each
fewer than 10 — before succeeding. Because the in-loop counter is cumulative
over the whole file and never resets on success, the eleventh transient error
is no longer retried: the attempt fails with the raised error instead of
completing. -/
theorem claim_C9_cex :
    chunkLoop "video/mp4" false 0 0 none (errInterleave [6, 5] [[1], [2]]) 0 0 []
      = .raised ⟨503, .json (some "backendError")⟩
    ∧ 6 < 10 ∧ 5 < 10 := by
  decide

/-- C9 (amended): when the TOTAL number of transient failures across the whole
transfer is at most 10 (the counter is cumulative, not per-chunk), the transfer
completes and the file is byte-identical to the no-error run
(`errInterleave []`); each transient retry consumes the error, re-requests the
same pending chunk, and leaves the written bytes (file position) untouched with
the file still open. -/
theorem claim_C9 (mt : String) (u : Bool) (sc sn : Nat)
    (chunks : List (List Nat)) (errs : List Nat) (step : Nat)
    (h1 : chunks ≠ []) (h2 : errs.sum ≤ 10) :
    chunkLoop mt u sc sn none (errInterleave errs chunks) step 0 []
      = .completed chunks.flatten
    ∧ chunkLoop mt u sc sn none (errInterleave [] chunks) step 0 []
      = .completed chunks.flatten
    ∧ (∀ (st : Nat) (b : ErrBody) (rest : List ChunkEvent) (stp r : Nat)
        (file : List Nat), transientStatus st = true → r < 10 →
      chunkLoop mt u sc sn none (.err ⟨st, b⟩ :: rest) stp r file
        = chunkLoop mt u sc sn none rest (stp + 1) (r + 1) file) :=
  ⟨by
    simpa using
      chunkLoop_errInterleave mt u sc sn chunks errs step 0 [] h1 (by omega),
   by
    simpa using
      chunkLoop_errInterleave mt u sc sn chunks [] step 0 [] h1 (by simp),
   fun st b rest stp r file hts hr =>
    chunkLoop_transient mt u sc sn st b rest stp r file hts hr⟩

/-- Witness for C9 at concrete inputs. -/
theorem claim_C9_witness :
    ([3, 4] : List Nat).sum ≤ 10
    ∧ chunkLoop "video/mp4" false 0 0 none (errInterleave [3, 4] [[1], [2]]) 0 0 []
      = .completed [[1], [2]].flatten :=
  ⟨by decide,
   (claim_C9 "video/mp4" false 0 0 [[1], [2]] [3, 4] 0 (by decide) (by decide)).1⟩

/-- C10 counterexample: first run fails with a not-found message, the fallback
fires, the retried run succeeds — `on_download_complete` fires twice (once in
the inner run's `finally`, once in the outer one's) with no error reported. -/
theorem claim_C10_cex :
    completeCount (download
        [.raises "Error: File not found here" false, .ok false]
        ⟨false, true, false⟩).2 = 2
    ∧ errCount (download
        [.raises "Error: File not found here" false, .ok false]
        ⟨false, true, false⟩).2 = 0 := by
  decide

/-- C10 (amended): the completion callback fires at most twice per run, and at
most once when the alternate-auth fallback cannot fire any more (latch already
set); the at-most-once bound claimed does not hold in general because the outer
invocation's `finally` fires the callback again after a successful fallback
re-run. -/
theorem claim_C10 : ∀ (env : List RunBody) (s : OrchState),
    completeCount (download env s).2 ≤ 2
    ∧ (s.alt_auth = true → completeCount (download env s).2 ≤ 1) := by
  intro env
  induction env with
  | nil =>
    intro s
    exact ⟨by simp [download, completeCount],
      fun _ => by simp [download, completeCount]⟩
  | cons b rest ih =>
    intro s
    cases b with
    | ok c =>
      rw [download_ok]
      by_cases hc : (s.is_cancelled || c) = true <;>
        constructor <;> try intro _
      all_goals simp [hc, completeCount, isCompleteCb]
    | raises m c =>
      by_cases h1 : strContains (stripAngle m) "downloadQuotaExceeded" = true
      · rw [download_quota_branch m c rest s h1]
        exact ⟨by simp [completeCount, isCompleteCb],
          fun _ => by simp [completeCount, isCompleteCb]⟩
      · rw [Bool.not_eq_true] at h1
        by_cases h2 : strContains (stripAngle m) "File not found" = true
        · by_cases h3 : (!s.alt_auth && s.use_sa) = true
          · have ha : s.alt_auth = false := by
              cases hsa : s.alt_auth <;> simp [hsa] at h3 ⊢
            have hu : s.use_sa = true := by
              cases hsu : s.use_sa <;> simp [hsu] at h3 ⊢
            rw [download_fallback m c rest s h1 h2 ha hu]
            have ihc : completeCount
                (download rest ⟨true, false, s.is_cancelled || c⟩).2 ≤ 1 :=
              (ih ⟨true, false, s.is_cancelled || c⟩).2 rfl
            constructor
            · have hc2 :
                  (List.filter isCompleteCb
                    (download rest ⟨true, false, s.is_cancelled || c⟩).2).length
                    ≤ 1 := by
                simpa [completeCount] using ihc
              by_cases h4 :
                  (download rest
                    ⟨true, false, s.is_cancelled || c⟩).1.is_cancelled = true <;>
                simp [h4, completeCount, isCompleteCb, List.filter_append] <;>
                omega
            · intro haT
              rw [ha] at haT
              cases haT
          · rw [Bool.not_eq_true] at h3
            rw [download_fnf_fatal m c rest s h1 h2 h3]
            exact ⟨by simp [completeCount, isCompleteCb],
              fun _ => by simp [completeCount, isCompleteCb]⟩
        · rw [Bool.not_eq_true] at h2
          rw [download_other_err m c rest s h1 h2]
          exact ⟨by simp [completeCount, isCompleteCb],
            fun _ => by simp [completeCount, isCompleteCb]⟩

/-- Witness for C10 at concrete inputs. -/
theorem claim_C10_witness :
    completeCount (download [.ok false] ⟨true, true, false⟩).2 ≤ 1 :=
  (claim_C10 [.ok false] ⟨true, true, false⟩).2 rfl
